import Mathlib

/-!
Shallow embedding of the CubeFS client-side interception layer
(`src/client/bypass/client.cc`) and the kernel-client socket helper
(`src/client_kernel/cfs_socket.c`).

Collaborator calls (page cache, storage SDK, libc) are passed in as
explicit oracle values: each model function takes the results those calls
would return and replays the C control flow on them.  Offsets, counts and
sizes are `off_t`/`size_t` values; the modelled paths only ever use
non-negative positions, so they are embedded as `Nat`, while `ssize_t`
return values (which carry −1 errors) are embedded as `Int`.
-/

namespace CfsClient

/-- Whole-`size_t` conversion: C assigns an `ssize_t` into a `size_t`
local by reduction mod 2^64. -/
def toSizeT (i : Int) : Nat := (i % (2:Int) ^ 64).toNat

/-- File-type classification used by the bypass client
(`FILE_TYPE_BIN_LOG`, `FILE_TYPE_RELAY_LOG`, ... from the client header;
the distinct constants are compared only for equality). -/
inductive FileType where
  | regular
  | binLog
  | relayLog
  | other
deriving DecidableEq, Repr

/-- Cache-policy bits of `inode_info_t.cache_flag`
(`FILE_CACHE_WRITE_BACK`, `FILE_CACHE_WRITE_THROUGH`,
`FILE_CACHE_PRIORITY_HIGH`); the bits are independent, so the mask is
embedded as a record of booleans. -/
structure CacheFlag where
  writeBack : Bool
  writeThrough : Bool
  priorityHigh : Bool
deriving DecidableEq, Repr

/-- `inode_info_t`: the per-inode registry entry (inode number, cached
logical size, fd-reference count, cache-policy flags). -/
structure InodeInfo where
  inode : Nat
  size : Nat
  fd_ref : Nat
  cacheFlag : CacheFlag
deriving DecidableEq, Repr

/-- `file_t`: the per-descriptor open-file entry (cursor, open flags
reduced to the `O_APPEND` bit used by the modelled paths, file type,
dup-reference count, owning inode info). -/
structure file_t where
  pos : Nat
  appendFlag : Bool
  fileType : FileType
  dup_ref : Nat
  inodeInfo : InodeInfo
deriving DecidableEq, Repr

/-- Modelled from the spec: `cfs_errno` / `cfs_errno_ssize_t` (client
header, not under src/) — "negative codes from the storage SDK,
translated 1:1 into the calling convention's error-number space":
a negative SDK code sets errno and the call returns −1, a non-negative
result passes through. -/
def cfs_errno_ssize_t (re : Int) : Int := if re < 0 then -1 else re

/-- Modelled from the spec: `update_inode_size` (cache helper, not under
src/) — the write path "on any success, update[s] the InodeInfo's cached
size to max(old_size, offset + bytes_written)" via
`update_inode_size(inode_info, offset + re)`, so the helper raises the
cached size to the given value when larger and never lowers it. -/
def update_inode_size (info : InodeInfo) (newSize : Nat) : InodeInfo :=
  { info with size := max info.size newSize }

/-! ## Kernel socket helper (`src/client_kernel/cfs_socket.c`)

`cfs_socket_send` and `cfs_socket_recv` wrap `cfs_socket_send_iovec` /
`cfs_socket_recv_iovec` in a bounded retry loop:

    for (i=0; i<CFS_SOCKET_EAGAIN_NUM; i++) {
        ret = cfs_socket_{send,recv}_iovec(csk, &iov, 1);
        if (ret >= 0 || ret != -EAGAIN) break;
    }

The iovec call is the oracle `attempt : Nat → Int` giving the result of
the i-th try. -/

def CFS_SOCKET_EAGAIN_NUM : Nat := 100

/-- Linux `EAGAIN` errno value (from the kernel headers). -/
def EAGAIN : Int := 11

/-- The retry loop body: `i` is the current iteration index, `fuel` the
number of loop iterations still permitted after this one.  The C break
condition `ret >= 0 || ret != -EAGAIN` is equivalent to
`ret ≠ -EAGAIN` since `-EAGAIN < 0`. -/
def eagainRetryAux (attempt : Nat → Int) (i : Nat) : Nat → Int
  | 0 => attempt i
  | Nat.succ fuel =>
      if attempt i = -EAGAIN then eagainRetryAux attempt (i + 1) fuel
      else attempt i

/-- `cfs_socket_send`: retry `cfs_socket_send_iovec` on `-EAGAIN`, at
most `CFS_SOCKET_EAGAIN_NUM` attempts, returning the last result. -/
def cfs_socket_send (attempt : Nat → Int) : Int :=
  eagainRetryAux attempt 0 (CFS_SOCKET_EAGAIN_NUM - 1)

/-- `cfs_socket_recv`: same retry structure as `cfs_socket_send`. -/
def cfs_socket_recv (attempt : Nat → Int) : Int :=
  eagainRetryAux attempt 0 (CFS_SOCKET_EAGAIN_NUM - 1)

/-! ## Association-list tables

`g_client_info.dup_fds`, `g_client_info.open_files` and
`g_client_info.open_inodes` are hash maps keyed by fd / inode number;
they are embedded as association lists with a first-match lookup. -/

/-- First-match lookup in a keyed table. -/
def lookupKey (k : Nat) : List (Nat × α) → Option α
  | [] => none
  | e :: rest => if e.1 = k then some e.2 else lookupKey k rest

/-- Remove the first entry with the given key (`map.erase`). -/
def eraseKey (k : Nat) : List (Nat × α) → List (Nat × α)
  | [] => []
  | e :: rest => if e.1 = k then rest else e :: eraseKey k rest

/-- Replace the value of the first entry with the given key (in-place
mutation of a map entry through a pointer). -/
def setKey (k : Nat) (v : α) : List (Nat × α) → List (Nat × α)
  | [] => []
  | e :: rest => if e.1 = k then (k, v) :: rest else e :: setKey k v rest

/-- Modelled from the spec: `CFS_FD_MASK` (client header, not under
src/) — "the reserved high bit used to tag distributed fds"; bit 30,
leaving the value a valid non-negative `int`. -/
def CFS_FD_MASK : Nat := 2 ^ 30

/-- `fd & ~CFS_FD_MASK`: strip the tag bit. -/
def clearFdTag (fd : Nat) : Nat := if fd.testBit 30 then fd - 2 ^ 30 else fd

/-! ## Write path (`real_write`, `real_pwrite`, `real_writev`)

Oracles: `write_cache_res` is the `write_cache` byte count,
`cfs_pwrite_res` / `cfs_pwritev_res` the SDK write result,
`libc_write_res` / `libc_pwrite_res` / `libc_writev_res` the local
replicate-path libc result.  `replicate` is
`strlen(g_client_info.replicate_path) > 0`. -/

/-- Observable outcome of one in-mount write/pwrite call. -/
structure WriteEffects where
  ret : Int
  f : file_t
  writeOffset : Nat
  backendWrite : Option (Nat × Nat)
  cleared : Option (Nat × Nat)
deriving DecidableEq, Repr

/-- `real_write`, in-mount branch with the open-file entry resolved
(client.cc lines 2333–2395): honor `O_APPEND`, offer the data to the
page cache, fall through to `cfs_pwrite` over the whole range on
write-through policy or short cache accept, advance the cursor and the
cached size on success, then mirror to the local replica. -/
def real_write_cfs (replicate : Bool) (f0 : file_t) (count : Nat)
    (write_cache_res : Nat) (cfs_pwrite_res : Int) (libc_write_res : Int) :
    WriteEffects :=
  let offset := if f0.appendFlag then f0.inodeInfo.size else f0.pos
  let useBackend := f0.inodeInfo.cacheFlag.writeThrough || write_cache_res < count
  let cleared := if write_cache_res < count then some (offset, count) else none
  let re : Int :=
    if useBackend then cfs_errno_ssize_t cfs_pwrite_res else (write_cache_res : Int)
  let backendWrite := if useBackend then some (offset, count) else none
  if re > 0 then
    let f2 := { f0 with pos := offset + re.toNat,
                        inodeInfo := update_inode_size f0.inodeInfo (offset + re.toNat) }
    if replicate ∧ libc_write_res ≠ re then
      { ret := libc_write_res, f := f2, writeOffset := offset,
        backendWrite := backendWrite, cleared := cleared }
    else
      { ret := re, f := f2, writeOffset := offset,
        backendWrite := backendWrite, cleared := cleared }
  else
    { ret := re, f := { f0 with pos := offset }, writeOffset := offset,
      backendWrite := backendWrite, cleared := cleared }

/-- `real_pwrite`, in-mount branch (client.cc lines 2441–2480): mirror
to the local replica first, then resolve the open file, offer to the
page cache, fall through to `cfs_pwrite` over the whole range on
write-through policy or short cache accept, and raise the cached size on
success.  The cursor is untouched and `O_APPEND` is not consulted. -/
def real_pwrite_cfs (replicate : Bool) (f0 : file_t) (count offset : Nat)
    (write_cache_res : Nat) (cfs_pwrite_res : Int) (libc_pwrite_res : Int) :
    WriteEffects :=
  if replicate ∧ libc_pwrite_res < 0 then
    { ret := libc_pwrite_res, f := f0, writeOffset := offset,
      backendWrite := none, cleared := none }
  else
    let useBackend := f0.inodeInfo.cacheFlag.writeThrough || write_cache_res < count
    let cleared := if write_cache_res < count then some (offset, count) else none
    let re : Int :=
      if useBackend then cfs_errno_ssize_t cfs_pwrite_res else (write_cache_res : Int)
    let backendWrite := if useBackend then some (offset, count) else none
    if re > 0 then
      { ret := re,
        f := { f0 with inodeInfo := update_inode_size f0.inodeInfo (offset + re.toNat) },
        writeOffset := offset, backendWrite := backendWrite, cleared := cleared }
    else
      { ret := re, f := f0, writeOffset := offset,
        backendWrite := backendWrite, cleared := cleared }

/-- Observable outcome of one in-mount writev call. -/
structure WritevEffects where
  ret : Int
  f : file_t
  backendOffset : Option Nat
deriving DecidableEq, Repr

/-- `real_writev`, in-mount branch (client.cc lines 2398–2428): mirror
to the local replica first, resolve the open file, honor `O_APPEND` by
repositioning the cursor to the cached size, issue `cfs_pwritev` at the
cursor, and advance cursor and cached size on success.  The page cache
is bypassed. -/
def real_writev_cfs (replicate : Bool) (f0 : file_t)
    (cfs_pwritev_res libc_writev_res : Int) : WritevEffects :=
  if replicate ∧ libc_writev_res < 0 then
    { ret := libc_writev_res, f := f0, backendOffset := none }
  else
    let offset := if f0.appendFlag then f0.inodeInfo.size else f0.pos
    let re := cfs_errno_ssize_t cfs_pwritev_res
    if re > 0 then
      { ret := re,
        f := { f0 with pos := offset + re.toNat,
                       inodeInfo := update_inode_size f0.inodeInfo (offset + re.toNat) },
        backendOffset := some offset }
    else
      { ret := re, f := { f0 with pos := offset }, backendOffset := some offset }

/-- The effective write offset of `real_write`/`real_writev`: `f->pos`
after the `O_APPEND` repositioning. -/
def effWriteOffset (f0 : file_t) : Nat :=
  if f0.appendFlag then f0.inodeInfo.size else f0.pos

/-- Whether a write falls through to the backend: write-through policy,
or the page cache accepted fewer bytes than requested. -/
def useBackendPath (f0 : file_t) (count wc : Nat) : Bool :=
  f0.inodeInfo.cacheFlag.writeThrough || wc < count

/-- The byte count produced by the cache/backend side of a write: the
`cfs_pwrite` result (through `cfs_errno_ssize_t`) on the backend path,
else the cache-accepted count. -/
def backendCount (f0 : file_t) (count wc : Nat) (pw : Int) : Int :=
  if useBackendPath f0 count wc then cfs_errno_ssize_t pw else (wc : Int)

/-! ## Direct per-extent read (`cfs_pread_sock`, client.cc lines 1983–2040)

`cfs_read_requests` splits the range into at most 3 per-extent requests;
each is served by a storage node over a pooled socket.  Oracles per
request: `packetOk` (`new_read_packet` non-NULL), `connFd` (`get_conn`),
`writeRes` (`write_sock`), `replyRes` (`get_read_reply`). -/

structure ReadReq where
  size : Nat
  partition_id : Nat
  packetOk : Bool
  connFd : Int
  writeRes : Int
  replyRes : Int
deriving DecidableEq, Repr

/-- The per-request loop of `cfs_pread_sock`: returns the bytes
accumulated into `read` and the final `has_err` flag.  A hole
(`partition_id == 0`) is zero-filled and counted; any packet,
connection, send or reply failure sets `has_err` and breaks; a short
reply is counted and breaks without error. -/
def preadSockLoop : List ReadReq → Nat × Bool
  | [] => (0, false)
  | r :: rest =>
      if r.size = 0 then (0, false)
      else if r.partition_id = 0 then
        let acc := preadSockLoop rest
        (r.size + acc.1, acc.2)
      else if ¬r.packetOk then (0, true)
      else if r.connFd < 0 then (0, true)
      else if r.writeRes < 0 then (0, true)
      else if r.replyRes < 0 then (0, true)
      else if r.replyRes.toNat ≠ r.size then (r.replyRes.toNat, false)
      else
        let acc := preadSockLoop rest
        (r.size + acc.1, acc.2)

/-- `cfs_pread_sock`: run the per-extent loop (`reqCountNeg` models
`cfs_read_requests` returning a negative count, which skips the loop and
flags an error), then fall back to a single whole-range `cfs_pread` if
`(read < count && !hasRefreshed) || has_err`.  Returns the byte result
and whether the fallback was taken. -/
def cfs_pread_sock (count : Nat) (hasRefreshed : Bool) (reqCountNeg : Bool)
    (reqs : List ReadReq) (cfs_pread_res : Int) : Int × Bool :=
  let acc := if reqCountNeg then (0, true) else preadSockLoop reqs
  let read : Nat := acc.1
  let has_err : Bool := reqCountNeg || acc.2
  if (read < count ∧ ¬hasRefreshed) ∨ has_err = true then (cfs_pread_res, true)
  else ((read : Int), false)

/-! ## Read path (`real_read`, `real_pread`, `real_readv`)

Oracles: `mallocOk`/`lseekOk` for the replicate-path preparation,
`libc_read_res` and `localData` for the local mirror read (final
contents of `buf_local`), `read_cache_res` for `read_cache`,
`refresh_res` for `cfs_refresh_eks`, the `cfs_pread_sock` oracles, and
`cfsData` for the final contents of `buf` on the CFS side.  In the C
source the local `size` is a `size_t`, so the `size >= 0` test after the
refresh always succeeds and `hasRefreshed` is set unconditionally. -/

/-- Observable outcome of one in-mount read/pread call. -/
structure ReadEffects where
  ret : Int
  f : file_t
  flushedInode : Bool
  refreshed : Bool
  sizeSeen : Nat
  flushedRange : Option (Nat × Nat)
  sockCall : Option (Nat × Nat × Bool)
  fatalExit : Bool
deriving DecidableEq, Repr

/-- `real_read`, in-mount branch with the open-file entry resolved
(client.cc lines 2040–2140): read the local mirror first, serve from the
page cache, refresh the extent map when the request reaches the cached
size (except for binlog files), fetch the rest via `cfs_pread_sock`
capped at the seen size, advance the cursor, and diff the overlap
against the mirror. -/
def real_read_cfs (replicate mallocOk lseekOk : Bool) (f0 : file_t) (count : Nat)
    (libc_read_res : Int) (localData : List Nat)
    (read_cache_res : Nat) (refresh_res : Int)
    (reqCountNeg : Bool) (reqs : List ReadReq) (cfs_pread_res : Int)
    (cfsData : List Nat) : ReadEffects :=
  let offset := f0.pos
  if replicate ∧ ¬mallocOk then
    { ret := -1, f := f0, flushedInode := false, refreshed := false,
      sizeSeen := f0.inodeInfo.size, flushedRange := none, sockCall := none,
      fatalExit := false }
  else if replicate ∧ ¬lseekOk then
    { ret := -1, f := f0, flushedInode := false, refreshed := false,
      sizeSeen := f0.inodeInfo.size, flushedRange := none, sockCall := none,
      fatalExit := false }
  else
    let re_local : Int := if replicate then libc_read_res else 0
    let size0 := f0.inodeInfo.size
    let re_cache := read_cache_res
    let doRefresh : Bool :=
      re_cache < count ∧ offset + count ≥ size0 ∧ f0.fileType ≠ FileType.binLog
    let size1 := if doRefresh then toSizeT refresh_res else size0
    let hasRefreshed := doRefresh
    let inode1 := if doRefresh then update_inode_size f0.inodeInfo size1
      else f0.inodeInfo
    let doSock : Bool := re_cache < count ∧ offset + re_cache < size1
    let new_count := if offset + count > size1 then size1 - offset else count
    let re : Int :=
      if doSock then
        cfs_errno_ssize_t
          (cfs_pread_sock new_count hasRefreshed reqCountNeg reqs cfs_pread_res).1
      else (re_cache : Int)
    let min_res := (min re_local re).toNat
    let fatal : Bool := replicate ∧ re_local > 0 ∧ re > 0 ∧
      localData.take min_res ≠ cfsData.take min_res
    { ret := re,
      f := { f0 with
             pos := if re > 0 then f0.pos + re.toNat else f0.pos,
             inodeInfo := inode1 },
      flushedInode := doRefresh, refreshed := doRefresh,
      sizeSeen := size1,
      flushedRange := if doSock then some (offset, count) else none,
      sockCall := if doSock then some (new_count, offset, hasRefreshed) else none,
      fatalExit := fatal }

/-- `real_pread`, in-mount branch with the open-file entry resolved
(client.cc lines 2205–2272): same as `real_read` at an explicit offset,
except the mirror read uses `pread` (no seek), the mirror read happens
before the open-file lookup, and the cursor is not advanced. -/
def real_pread_cfs (replicate mallocOk : Bool) (f0 : file_t) (count offset : Nat)
    (libc_pread_res : Int) (localData : List Nat)
    (read_cache_res : Nat) (refresh_res : Int)
    (reqCountNeg : Bool) (reqs : List ReadReq) (cfs_pread_res : Int)
    (cfsData : List Nat) : ReadEffects :=
  if replicate ∧ ¬mallocOk then
    { ret := -1, f := f0, flushedInode := false, refreshed := false,
      sizeSeen := f0.inodeInfo.size, flushedRange := none, sockCall := none,
      fatalExit := false }
  else
    let re_local : Int := if replicate then libc_pread_res else 0
    let size0 := f0.inodeInfo.size
    let re_cache := read_cache_res
    let doRefresh : Bool :=
      re_cache < count ∧ offset + count ≥ size0 ∧ f0.fileType ≠ FileType.binLog
    let size1 := if doRefresh then toSizeT refresh_res else size0
    let hasRefreshed := doRefresh
    let inode1 := if doRefresh then update_inode_size f0.inodeInfo size1
      else f0.inodeInfo
    let doSock : Bool := re_cache < count ∧ offset + re_cache < size1
    let new_count := if offset + count > size1 then size1 - offset else count
    let re : Int :=
      if doSock then
        cfs_errno_ssize_t
          (cfs_pread_sock new_count hasRefreshed reqCountNeg reqs cfs_pread_res).1
      else (re_cache : Int)
    let min_res := (min re_local re).toNat
    let fatal : Bool := replicate ∧ re_local > 0 ∧ re > 0 ∧
      localData.take min_res ≠ cfsData.take min_res
    { ret := re, f := { f0 with inodeInfo := inode1 },
      flushedInode := doRefresh, refreshed := doRefresh,
      sizeSeen := size1,
      flushedRange := if doSock then some (offset, count) else none,
      sockCall := if doSock then some (new_count, offset, hasRefreshed) else none,
      fatalExit := fatal }

/-- Observable outcome of one in-mount readv call. -/
structure ReadvEffects where
  ret : Int
  f : file_t
  fatalExit : Bool
deriving DecidableEq, Repr

/-- `real_readv`, in-mount branch with the open-file entry resolved
(client.cc lines 2142–2202): issue `cfs_preadv` at the cursor, advance
the cursor, then in replicate mode re-read the same range from the local
mirror and `memcmp` every iovec over its full `iov_len` (the buffers are
modelled as the full per-iovec contents on each side). -/
def real_readv_cfs (replicate lseekOk : Bool) (f0 : file_t)
    (cfs_preadv_res libc_readv_res : Int)
    (cfsBufs localBufs : List (List Nat)) : ReadvEffects :=
  let re := cfs_errno_ssize_t cfs_preadv_res
  let f1 := if re > 0 then { f0 with pos := f0.pos + re.toNat } else f0
  if replicate then
    if re ≤ 0 then { ret := re, f := f1, fatalExit := false }
    else if ¬lseekOk then { ret := re, f := f1, fatalExit := false }
    else
      let re2 := libc_readv_res
      if re2 ≤ 0 then { ret := re2, f := f1, fatalExit := false }
      else
        { ret := re2, f := f1,
          fatalExit := (cfsBufs.zip localBufs).any (fun p => p.1 ≠ p.2) }
  else { ret := re, f := f1, fatalExit := false }

/-! ## Close path (`close_cfs_fd`, `real_close`, client.cc lines 7–97) -/

/-- The open-file table entry as seen by the close path: the dup
refcount and the owning inode number (`f->inode_info->inode`). -/
structure FileEntry where
  dup_ref : Nat
  inode : Nat
deriving DecidableEq, Repr

/-- The process-wide tables touched by `close_cfs_fd`. -/
structure ClientTables where
  dup_fds : List (Nat × Nat)
  open_files : List (Nat × FileEntry)
  open_inodes : List (Nat × InodeInfo)
deriving DecidableEq, Repr

/-- Observable outcome of `close_cfs_fd`. -/
structure CloseEffects where
  ret : Int
  dup_fds : List (Nat × Nat)
  open_files : List (Nat × FileEntry)
  open_inodes : List (Nat × InodeInfo)
  backendClosed : Bool
  flushedInode : Option Nat
  freedInode : Option Nat
deriving DecidableEq, Repr

/-- The dup-alias resolution prologue of `close_cfs_fd`: follow and
erase the dup-table entry if present, otherwise strip the tag bit. -/
def resolveDupFd (dup_fds : List (Nat × Nat)) (fd : Nat) :
    Nat × List (Nat × Nat) :=
  match lookupKey fd dup_fds with
  | some m => (m, eraseKey fd dup_fds)
  | none => (clearFdTag fd, dup_fds)

/-- `close_cfs_fd` (client.cc lines 7–69): resolve the dup alias, look
up the open-file entry (absent ⟹ return 0), decrement `dup_ref`; at
zero (and, in replicate mode, after a successful local close) remove the
entry, decrement the owning inode's `fd_ref`, and at zero remove the
inode, flush it, free it; finally request the backend close. -/
def close_cfs_fd (replicate : Bool) (libc_close_res cfs_close_res : Int)
    (st : ClientTables) (fd0 : Nat) : CloseEffects :=
  let r := resolveDupFd st.dup_fds fd0
  let fd := r.1
  let dup' := r.2
  match lookupKey fd st.open_files with
  | none =>
      { ret := 0, dup_fds := dup', open_files := st.open_files,
        open_inodes := st.open_inodes, backendClosed := false,
        flushedInode := none, freedInode := none }
  | some f =>
      let f1 : FileEntry := { f with dup_ref := f.dup_ref - 1 }
      if f1.dup_ref ≠ 0 then
        { ret := 0, dup_fds := dup', open_files := setKey fd f1 st.open_files,
          open_inodes := st.open_inodes, backendClosed := false,
          flushedInode := none, freedInode := none }
      else if replicate ∧ libc_close_res < 0 then
        { ret := libc_close_res, dup_fds := dup',
          open_files := setKey fd f1 st.open_files,
          open_inodes := st.open_inodes, backendClosed := false,
          flushedInode := none, freedInode := none }
      else
        let files' := eraseKey fd st.open_files
        match lookupKey f.inode st.open_inodes with
        | some ii =>
            let ii1 : InodeInfo := { ii with fd_ref := ii.fd_ref - 1 }
            if ii1.fd_ref = 0 then
              { ret := cfs_errno_ssize_t cfs_close_res, dup_fds := dup',
                open_files := files',
                open_inodes := eraseKey f.inode st.open_inodes,
                backendClosed := true, flushedInode := some f.inode,
                freedInode := some f.inode }
            else
              { ret := cfs_errno_ssize_t cfs_close_res, dup_fds := dup',
                open_files := files',
                open_inodes := setKey f.inode ii1 st.open_inodes,
                backendClosed := true, flushedInode := none,
                freedInode := none }
        | none =>
            { ret := cfs_errno_ssize_t cfs_close_res, dup_fds := dup',
              open_files := files', open_inodes := st.open_inodes,
              backendClosed := true, flushedInode := none,
              freedInode := none }

/-! ## Inode registry (`record_inode_info`, client.cc lines 99–153)

The function reads the registry twice: once under the read lock
(snapshot `m1`) and once under the write lock after building an entry
(snapshot `m2`); between the two, other threads may have changed the
registry, so the two snapshots are independent inputs. -/

/-- Bump the fd-reference of an inode entry. -/
def bumpFdRef (ii : InodeInfo) : InodeInfo := { ii with fd_ref := ii.fd_ref + 1 }

/-- Modelled from the spec: `new_inode_info` (cache helper, not under
src/) — builds a fresh entry for the inode, referenced by the one
descriptor that triggered it.  The caller (`record_inode_info`, in src/)
then sets the size and the cache flags from the file type exactly as in
client.cc lines 116–138. -/
def buildInodeInfo (inode : Nat) (file_type : FileType) (size : Nat) : InodeInfo :=
  let use_pagecache : Bool :=
    file_type = FileType.relayLog ∨ file_type = FileType.binLog
  { inode := inode, size := size, fd_ref := 1,
    cacheFlag :=
      { writeBack := use_pagecache,
        writeThrough := false,
        priorityHigh := use_pagecache ∧ file_type = FileType.relayLog } }

/-- Observable outcome of `record_inode_info`. -/
structure RecordResult where
  registry : List (Nat × InodeInfo)
  returned : Option InodeInfo
  discardedBuilt : Bool
deriving DecidableEq, Repr

/-- `record_inode_info`: under the read lock, bump and return an
existing entry; otherwise build one optimistically (`allocOk` models the
`new_inode_info` allocation), then under the write lock re-check: if
another thread inserted first, discard the just-built entry and bump the
winner, else insert the built entry. -/
def record_inode_info (m1 m2 : List (Nat × InodeInfo)) (inode : Nat)
    (file_type : FileType) (size : Nat) (allocOk : Bool) : RecordResult :=
  match lookupKey inode m1 with
  | some ii =>
      { registry := setKey inode (bumpFdRef ii) m1,
        returned := some (bumpFdRef ii), discardedBuilt := false }
  | none =>
      if ¬allocOk then
        { registry := m2, returned := none, discardedBuilt := false }
      else
        let built := buildInodeInfo inode file_type size
        match lookupKey inode m2 with
        | some winner =>
            { registry := setKey inode (bumpFdRef winner) m2,
              returned := some (bumpFdRef winner), discardedBuilt := true }
        | none =>
            { registry := (inode, built) :: m2,
              returned := some built, discardedBuilt := false }

/-! ## Truncate and fstat (`real_truncate`, `real_ftruncate`,
`real_fstat`, client.cc lines 349–415 and 1272–1303) -/

/-- `real_truncate`, in-mount branch: mirror to the local replica, issue
`cfs_truncate`, then on success resolve the inode number via `cfs_stat`
and, if that inode is open, set its cached size to the new length. -/
def real_truncate_cfs (replicate : Bool)
    (libc_truncate_res cfs_truncate_res cfs_stat_res : Int) (stat_ino : Nat)
    (reg : List (Nat × InodeInfo)) (length : Nat) :
    Int × List (Nat × InodeInfo) :=
  if replicate ∧ libc_truncate_res < 0 then (libc_truncate_res, reg)
  else
    let re := cfs_errno_ssize_t cfs_truncate_res
    if re < 0 then (re, reg)
    else if cfs_errno_ssize_t cfs_stat_res = 0 then
      match lookupKey stat_ino reg with
      | some ii => (re, setKey stat_ino { ii with size := length } reg)
      | none => (re, reg)
    else (re, reg)

/-- `real_ftruncate`, in-mount branch: mirror to the local replica,
resolve the open file, set the cached size to the new length directly,
then issue `cfs_ftruncate`.  `f` is the `get_open_file` result. -/
def real_ftruncate_cfs (replicate : Bool)
    (libc_ftruncate_res cfs_ftruncate_res : Int) (f : Option file_t)
    (length : Nat) : Int × Option file_t :=
  if replicate ∧ libc_ftruncate_res < 0 then (libc_ftruncate_res, f)
  else
    match f with
    | none => (if replicate then libc_ftruncate_res else -1, none)
    | some f0 =>
        (cfs_errno_ssize_t cfs_ftruncate_res,
         some { f0 with inodeInfo := { f0.inodeInfo with size := length } })

/-- The st_size override block shared verbatim by every stat-family
wrapper (client.cc 1137-1142 and its copies in real_stat64, real_lstat,
real_lstat64, real_fstat, real_fstat64, real_fstatat, real_fstatat64,
real_statx): on backend success (`re == 0`), if the inode is currently
open, the locally cached size replaces the backend's `st_size`
(`backendSize`); otherwise the buffer keeps what the backend wrote. -/
def statSizeOverride (re : Int) (st_ino backendSize : Nat)
    (reg : List (Nat × InodeInfo)) : Nat :=
  if re = 0 then
    match lookupKey st_ino reg with
    | some ii => ii.size
    | none => backendSize
  else backendSize

/-- `real_stat`, in-mount branch (client.cc 1133-1156): issue
`cfs_stat`; on success, if the inode is open, override `st_size` with
the locally cached size; in replicate mode the return code is then the
local `libc_stat` result (early exit when it fails, plain return
otherwise), and the override is kept either way. -/
def real_stat_cfs (replicate : Bool) (cfs_stat_res libc_stat_res : Int)
    (st_ino backendSize : Nat) (reg : List (Nat × InodeInfo)) : Int × Nat :=
  let re := cfs_errno_ssize_t cfs_stat_res
  (if replicate then libc_stat_res else re,
   statSizeOverride re st_ino backendSize reg)

/-- `real_stat64`, in-mount branch (client.cc 1168-1191): identical to
`real_stat` with `cfs_stat64`/`libc_stat64` and `struct stat64`. -/
def real_stat64_cfs (replicate : Bool) (cfs_stat64_res libc_stat64_res : Int)
    (st_ino backendSize : Nat) (reg : List (Nat × InodeInfo)) : Int × Nat :=
  let re := cfs_errno_ssize_t cfs_stat64_res
  (if replicate then libc_stat64_res else re,
   statSizeOverride re st_ino backendSize reg)

/-- `real_lstat`, in-mount branch (client.cc 1203-1226): identical to
`real_stat` with `cfs_lstat`/`libc_lstat`. -/
def real_lstat_cfs (replicate : Bool) (cfs_lstat_res libc_lstat_res : Int)
    (st_ino backendSize : Nat) (reg : List (Nat × InodeInfo)) : Int × Nat :=
  let re := cfs_errno_ssize_t cfs_lstat_res
  (if replicate then libc_lstat_res else re,
   statSizeOverride re st_ino backendSize reg)

/-- `real_lstat64`, in-mount branch (client.cc 1238-1261): identical to
`real_stat` with `cfs_lstat64`/`libc_lstat64`. -/
def real_lstat64_cfs (replicate : Bool) (cfs_lstat64_res libc_lstat64_res : Int)
    (st_ino backendSize : Nat) (reg : List (Nat × InodeInfo)) : Int × Nat :=
  let re := cfs_errno_ssize_t cfs_lstat64_res
  (if replicate then libc_lstat64_res else re,
   statSizeOverride re st_ino backendSize reg)

/-- `real_fstat`, in-mount branch (client.cc 1272-1303): issue
`cfs_fstat` on the resolved fd; on success, if the inode is open,
override `st_size` with the locally cached size; replicate mode reruns
`libc_fstat` for the return code and the consistency log.  Returns the
final result code and the `st_size` left in the caller's buffer. -/
def real_fstat_cfs (replicate : Bool) (cfs_fstat_res libc_fstat_res : Int)
    (st_ino backendSize : Nat) (reg : List (Nat × InodeInfo)) : Int × Nat :=
  let re := cfs_errno_ssize_t cfs_fstat_res
  (if replicate then libc_fstat_res else re,
   statSizeOverride re st_ino backendSize reg)

/-- `real_fstat64`, in-mount branch (client.cc 1306-1335): identical to
`real_fstat` with `cfs_fstat64`/`libc_fstat64`. -/
def real_fstat64_cfs (replicate : Bool) (cfs_fstat64_res libc_fstat64_res : Int)
    (st_ino backendSize : Nat) (reg : List (Nat × InodeInfo)) : Int × Nat :=
  let re := cfs_errno_ssize_t cfs_fstat64_res
  (if replicate then libc_fstat64_res else re,
   statSizeOverride re st_ino backendSize reg)

/-- `real_fstatat`, in-mount branch (client.cc 1337-1383): after the
dirfd/path classification, identical override and replicate handling
with `cfs_fstatat`/`libc_fstatat`. -/
def real_fstatat_cfs (replicate : Bool) (cfs_fstatat_res libc_fstatat_res : Int)
    (st_ino backendSize : Nat) (reg : List (Nat × InodeInfo)) : Int × Nat :=
  let re := cfs_errno_ssize_t cfs_fstatat_res
  (if replicate then libc_fstatat_res else re,
   statSizeOverride re st_ino backendSize reg)

/-- `real_fstatat64`, in-mount branch (client.cc 1385-1431): identical
to `real_fstatat` with `cfs_fstatat64`/`libc_fstatat64`. -/
def real_fstatat64_cfs (replicate : Bool)
    (cfs_fstatat64_res libc_fstatat64_res : Int) (st_ino backendSize : Nat)
    (reg : List (Nat × InodeInfo)) : Int × Nat :=
  let re := cfs_errno_ssize_t cfs_fstatat64_res
  (if replicate then libc_fstatat64_res else re,
   statSizeOverride re st_ino backendSize reg)

/-- `real_statx`, in-mount branch (client.cc 1434-1495): issue
`cfs_fstatat` into a scratch stat buffer; on success copy it into the
statx buffer (`stx_size` getting the backend size) and then, if the
inode is open, override `stx_size` with the locally cached size directly
from the registry.  No replicate block exists for statx. -/
def real_statx_cfs (cfs_fstatat_res : Int) (st_ino backendSize : Nat)
    (reg : List (Nat × InodeInfo)) : Int × Nat :=
  let re := cfs_errno_ssize_t cfs_fstatat_res
  (re, statSizeOverride re st_ino backendSize reg)

/-! ## Theorems -/

theorem lookupKey_eq_none_iff {α : Type} {k : Nat} {l : List (Nat × α)} :
    lookupKey k l = none ↔ k ∉ l.map Prod.fst := by
  induction l with
  | nil => simp [lookupKey]
  | cons e rest ih =>
      simp only [lookupKey, List.map_cons, List.mem_cons]
      by_cases he : e.1 = k
      · simp [he]
      · simp only [if_neg he, ih]
        constructor
        · intro h hmem
          rcases hmem with h1 | h2
          · exact he h1.symm
          · exact h h2
        · intro h h2
          exact h (Or.inr h2)

theorem lookupKey_setKey_of_mem {α : Type} {k : Nat} {x : α} (v : α)
    {l : List (Nat × α)} (h : lookupKey k l = some x) :
    lookupKey k (setKey k v l) = some v := by
  induction l with
  | nil => simp [lookupKey] at h
  | cons e rest ih =>
      by_cases he : e.1 = k
      · simp [lookupKey, setKey, he]
      · simp only [lookupKey, setKey, he, if_false, if_neg he] at h ⊢
        exact ih h

theorem lookupKey_eraseKey_self {α : Type} {k : Nat} {l : List (Nat × α)}
    (h : (l.map Prod.fst).Nodup) : lookupKey k (eraseKey k l) = none := by
  induction l with
  | nil => rfl
  | cons e rest ih =>
      simp only [List.map_cons, List.nodup_cons] at h
      by_cases he : e.1 = k
      · simp only [eraseKey, if_pos he]
        exact lookupKey_eq_none_iff.mpr (he ▸ h.1)
      · simp only [eraseKey, if_neg he, lookupKey, if_neg he]
        exact ih h.2

theorem keys_setKey {α : Type} (k : Nat) (v : α) (l : List (Nat × α)) :
    (setKey k v l).map Prod.fst = l.map Prod.fst := by
  induction l with
  | nil => rfl
  | cons e rest ih =>
      by_cases he : e.1 = k
      · simp [setKey, he]
      · simp [setKey, he, ih]

theorem eagainRetryAux_spec (attempt : Nat → Int) (i fuel : Nat) :
    ∃ k, i ≤ k ∧ k ≤ i + fuel ∧
      eagainRetryAux attempt i fuel = attempt k ∧
      (∀ j, i ≤ j → j < k → attempt j = -EAGAIN) ∧
      (attempt k = -EAGAIN → k = i + fuel) := by
  induction fuel generalizing i with
  | zero =>
      exact ⟨i, le_refl i, by omega, rfl, fun j h1 h2 => absurd h1 (by omega),
        fun _ => by omega⟩
  | succ fuel ih =>
      by_cases h : attempt i = -EAGAIN
      · obtain ⟨k, hk1, hk2, hk3, hk4, hk5⟩ := ih (i + 1)
        refine ⟨k, by omega, by omega, ?_, ?_, ?_⟩
        · simpa [eagainRetryAux, h] using hk3
        · intro j hj1 hj2
          rcases Nat.eq_or_lt_of_le hj1 with rfl | hj
          · exact h
          · exact hk4 j hj hj2
        · intro he; have := hk5 he; omega
      · exact ⟨i, le_refl i, by omega, by simp [eagainRetryAux, h],
          fun j h1 h2 => absurd h1 (by omega), fun he => absurd he h⟩

/-- C9: for every socket send and receive on the backend connection
path, a transient EAGAIN failure is retried immediately; the retry loop
is bounded by the fixed count `CFS_SOCKET_EAGAIN_NUM = 100`, and the
call returns the result of the first non-EAGAIN attempt, or the final
EAGAIN error once the bound is exhausted. -/
theorem socket_send_recv_bounded_retry (attempt : Nat → Int) :
    ∃ k, k < CFS_SOCKET_EAGAIN_NUM ∧
      cfs_socket_send attempt = attempt k ∧
      cfs_socket_recv attempt = attempt k ∧
      (∀ j, j < k → attempt j = -EAGAIN) ∧
      (attempt k = -EAGAIN → k = CFS_SOCKET_EAGAIN_NUM - 1) := by
  obtain ⟨k, _, hk2, hk3, hk4, hk5⟩ :=
    eagainRetryAux_spec attempt 0 (CFS_SOCKET_EAGAIN_NUM - 1)
  refine ⟨k, ?_, hk3, hk3, fun j hj => hk4 j (Nat.zero_le j) hj, ?_⟩
  · simp only [CFS_SOCKET_EAGAIN_NUM] at hk2 ⊢; omega
  · intro he; have := hk5 he; omega

/-- Closed instance of the retry bound: a first attempt that is not
EAGAIN is returned as-is by both send and recv. -/
theorem socket_send_recv_bounded_retry_witness :
    cfs_socket_send (fun _ => 7) = 7 ∧ cfs_socket_recv (fun _ => 7) = 7 := by
  obtain ⟨k, _, hs, hr, _, _⟩ := socket_send_recv_bounded_retry (fun _ => 7)
  exact ⟨hs, hr⟩

/-- C10: closing a tagged fd whose resolved descriptor has no open-file
table entry returns 0 and leaves the open-file and open-inode tables
unchanged; no backend close, flush or release is requested. -/
theorem close_missing_entry_noop (replicate : Bool) (lc cc : Int)
    (st : ClientTables) (fd0 : Nat)
    (h : lookupKey (resolveDupFd st.dup_fds fd0).1 st.open_files = none) :
    (close_cfs_fd replicate lc cc st fd0).ret = 0 ∧
    (close_cfs_fd replicate lc cc st fd0).open_files = st.open_files ∧
    (close_cfs_fd replicate lc cc st fd0).open_inodes = st.open_inodes ∧
    (close_cfs_fd replicate lc cc st fd0).backendClosed = false ∧
    (close_cfs_fd replicate lc cc st fd0).flushedInode = none ∧
    (close_cfs_fd replicate lc cc st fd0).freedInode = none := by
  simp [close_cfs_fd, h]

/-- Closed instance of `close_missing_entry_noop`: closing the tagged fd
`2^30 + 5` against empty tables succeeds with no effect. -/
theorem close_missing_entry_noop_witness :
    (close_cfs_fd false 0 0 ⟨[], [], []⟩ (2 ^ 30 + 5)).ret = 0 ∧
    (close_cfs_fd false 0 0 ⟨[], [], []⟩ (2 ^ 30 + 5)).backendClosed = false := by
  obtain ⟨h1, _, _, h4, _, _⟩ :=
    close_missing_entry_noop false 0 0 ⟨[], [], []⟩ (2 ^ 30 + 5) (by rfl)
  exact ⟨h1, h4⟩

/-- C3: closing an in-mount descriptor decrements the OpenFile's
dup-reference; only when it reaches zero is the table entry removed, the
owning InodeInfo's fd-reference decremented and the backend close
requested (in replicate mode additionally gated on the local close
succeeding); and only when the fd-reference reaches zero is the inode
removed from the registry, flushed, and freed. -/
theorem close_refcount_discipline (replicate : Bool) (lc cc : Int)
    (st : ClientTables) (fd0 : Nat) (f : FileEntry) (ii : InodeInfo)
    (hf : lookupKey (resolveDupFd st.dup_fds fd0).1 st.open_files = some f)
    (hii : lookupKey f.inode st.open_inodes = some ii)
    (hnodupF : (st.open_files.map Prod.fst).Nodup)
    (hnodupI : (st.open_inodes.map Prod.fst).Nodup) :
    (1 < f.dup_ref →
       lookupKey (resolveDupFd st.dup_fds fd0).1
           (close_cfs_fd replicate lc cc st fd0).open_files =
         some { f with dup_ref := f.dup_ref - 1 } ∧
       (close_cfs_fd replicate lc cc st fd0).open_inodes = st.open_inodes ∧
       (close_cfs_fd replicate lc cc st fd0).backendClosed = false ∧
       (close_cfs_fd replicate lc cc st fd0).freedInode = none ∧
       (close_cfs_fd replicate lc cc st fd0).ret = 0) ∧
    ((close_cfs_fd replicate lc cc st fd0).backendClosed = true →
       f.dup_ref ≤ 1) ∧
    (lookupKey (resolveDupFd st.dup_fds fd0).1
        (close_cfs_fd replicate lc cc st fd0).open_files = none →
       f.dup_ref ≤ 1) ∧
    ((close_cfs_fd replicate lc cc st fd0).freedInode ≠ none →
       f.dup_ref ≤ 1 ∧ ii.fd_ref ≤ 1) ∧
    (f.dup_ref = 1 → ¬(replicate = true ∧ lc < 0) →
       lookupKey (resolveDupFd st.dup_fds fd0).1
           (close_cfs_fd replicate lc cc st fd0).open_files = none ∧
       (close_cfs_fd replicate lc cc st fd0).backendClosed = true ∧
       (close_cfs_fd replicate lc cc st fd0).ret = cfs_errno_ssize_t cc ∧
       (1 < ii.fd_ref →
          lookupKey f.inode (close_cfs_fd replicate lc cc st fd0).open_inodes =
            some { ii with fd_ref := ii.fd_ref - 1 } ∧
          (close_cfs_fd replicate lc cc st fd0).flushedInode = none ∧
          (close_cfs_fd replicate lc cc st fd0).freedInode = none) ∧
       (ii.fd_ref = 1 →
          lookupKey f.inode (close_cfs_fd replicate lc cc st fd0).open_inodes =
            none ∧
          (close_cfs_fd replicate lc cc st fd0).flushedInode = some f.inode ∧
          (close_cfs_fd replicate lc cc st fd0).freedInode = some f.inode)) := by
  simp only [close_cfs_fd, hf, hii]
  by_cases hd : f.dup_ref - 1 = 0
  · rw [if_neg (not_not_intro hd)]
    by_cases hrep : replicate = true ∧ lc < 0
    · rw [if_pos hrep]
      exact ⟨fun h => absurd hd (by omega), fun _ => by omega, fun _ => by omega,
        fun h => absurd rfl h, fun _ h2 => absurd hrep h2⟩
    · rw [if_neg hrep]
      by_cases hfd : ii.fd_ref - 1 = 0
      · rw [if_pos hfd]
        refine ⟨fun h => absurd hd (by omega), fun _ => by omega,
          fun _ => by omega, fun _ => ⟨by omega, by omega⟩, fun _ _ => ?_⟩
        exact ⟨lookupKey_eraseKey_self hnodupF, rfl, rfl,
          fun h1 => absurd h1 (by omega),
          fun _ => ⟨lookupKey_eraseKey_self hnodupI, rfl, rfl⟩⟩
      · rw [if_neg hfd]
        refine ⟨fun h => absurd hd (by omega), fun _ => by omega,
          fun _ => by omega, fun h => absurd rfl h, fun _ _ => ?_⟩
        exact ⟨lookupKey_eraseKey_self hnodupF, rfl, rfl,
          fun _ => ⟨lookupKey_setKey_of_mem _ hii, rfl, rfl⟩,
          fun h1 => absurd (by omega) hfd⟩
  · rw [if_pos hd]
    refine ⟨fun _ => ⟨lookupKey_setKey_of_mem _ hf, rfl, rfl, rfl, rfl⟩,
      fun h => by simp at h, fun h => ?_, fun h => absurd rfl h,
      fun h1 _ => absurd h1 (by omega)⟩
    rw [lookupKey_setKey_of_mem { f with dup_ref := f.dup_ref - 1 } hf] at h
    exact absurd h (by simp)

/-- Concrete fixtures for the close-path and registry theorems. -/
def c3file : FileEntry := { dup_ref := 2, inode := 9 }

def c3inode : InodeInfo :=
  { inode := 9, size := 0, fd_ref := 1,
    cacheFlag := { writeBack := false, writeThrough := false, priorityHigh := false } }

def c3st : ClientTables :=
  { dup_fds := [], open_files := [(5, c3file)], open_inodes := [(9, c3inode)] }

/-- Closed instance of `close_refcount_discipline`: closing one of two
aliases decrements the dup-reference and touches nothing else. -/
theorem close_refcount_discipline_witness :
    lookupKey (resolveDupFd c3st.dup_fds (2 ^ 30 + 5)).1
        (close_cfs_fd false 0 0 c3st (2 ^ 30 + 5)).open_files =
      some { c3file with dup_ref := c3file.dup_ref - 1 } ∧
    (close_cfs_fd false 0 0 c3st (2 ^ 30 + 5)).open_inodes = c3st.open_inodes ∧
    (close_cfs_fd false 0 0 c3st (2 ^ 30 + 5)).backendClosed = false := by
  obtain ⟨h1, -, -, -, -⟩ := close_refcount_discipline false 0 0 c3st
    (2 ^ 30 + 5) c3file c3inode (by decide) (by decide) (by decide) (by decide)
  obtain ⟨a, b, c, -, -⟩ := h1 (by decide)
  exact ⟨a, b, c⟩

/-- C4: at most one InodeInfo per inode number is live in the registry:
the acquire path re-checks the registry under the write lock after
optimistic construction; if another thread inserted first, the
just-built entry is discarded and the winner's fd-reference is bumped
instead of inserting a duplicate, so key uniqueness is preserved from
any pair of lock-time registry snapshots. -/
theorem record_inode_info_unique (m1 m2 : List (Nat × InodeInfo))
    (inode : Nat) (ft : FileType) (size : Nat) (allocOk : Bool)
    (h1 : (m1.map Prod.fst).Nodup) (h2 : (m2.map Prod.fst).Nodup) :
    (((record_inode_info m1 m2 inode ft size allocOk).registry.map
        Prod.fst).Nodup) ∧
    (∀ w, lookupKey inode m1 = none → allocOk = true →
       lookupKey inode m2 = some w →
       (record_inode_info m1 m2 inode ft size allocOk).discardedBuilt = true ∧
       (record_inode_info m1 m2 inode ft size allocOk).registry =
         setKey inode (bumpFdRef w) m2 ∧
       (record_inode_info m1 m2 inode ft size allocOk).returned =
         some (bumpFdRef w)) ∧
    (lookupKey inode m1 = none → allocOk = true →
       lookupKey inode m2 = none →
       (record_inode_info m1 m2 inode ft size allocOk).registry =
         (inode, buildInodeInfo inode ft size) :: m2) := by
  refine ⟨?_, ?_, ?_⟩
  · unfold record_inode_info
    cases hm1 : lookupKey inode m1 with
    | some ii => simpa [keys_setKey] using h1
    | none =>
        cases hok : allocOk with
        | false => simpa using h2
        | true =>
            cases hm2 : lookupKey inode m2 with
            | some w => simpa [keys_setKey] using h2
            | none =>
                have hmem := lookupKey_eq_none_iff.mp hm2
                simp [List.nodup_cons, hmem, h2]
  · intro w hm1 hok hm2
    simp [record_inode_info, hm1, hok, hm2]
  · intro hm1 hok hm2
    simp [record_inode_info, hm1, hok, hm2]

/-- Closed instance of `record_inode_info_unique`: a concurrent insert
between the two lock acquisitions is reconciled by bumping the winner. -/
theorem record_inode_info_unique_witness :
    (record_inode_info [] [(9, c3inode)] 9 FileType.regular 0
        true).discardedBuilt = true ∧
    (record_inode_info [] [(9, c3inode)] 9 FileType.regular 0 true).registry =
      [(9, bumpFdRef c3inode)] ∧
    ((record_inode_info [] [(9, c3inode)] 9 FileType.regular 0
        true).registry.map Prod.fst).Nodup := by
  obtain ⟨hn, hw, -⟩ := record_inode_info_unique [] [(9, c3inode)] 9
    FileType.regular 0 true (by decide) (by decide)
  obtain ⟨a, b, -⟩ := hw c3inode (by decide) rfl (by decide)
  refine ⟨a, ?_, hn⟩
  rw [b]; rfl

/-- Concrete fixture for the write-path theorems: a write-back regular
file of size 0 with cursor 0. -/
def wfile : file_t :=
  { pos := 0, appendFlag := false, fileType := FileType.regular, dup_ref := 1,
    inodeInfo :=
      { inode := 1, size := 0, fd_ref := 1,
        cacheFlag :=
          { writeBack := true, writeThrough := false, priorityHigh := false } } }

/-- C1 counterexample: in replicate mode, when the backend path writes 5
bytes but the mirrored local write returns 3, `real_write` returns
n = 3 > 0 while the cached size was updated from the backend count to 5,
not to max(old_size, offset + n) = 3. -/
theorem write_replicate_size_mismatch_cex :
    (real_write_cfs true wfile 5 0 5 3).ret = 3 ∧
    (real_write_cfs true wfile 5 0 5 3).ret > 0 ∧
    (real_write_cfs true wfile 5 0 5 3).f.inodeInfo.size = 5 ∧
    (real_write_cfs true wfile 5 0 5 3).f.inodeInfo.size ≠
      max wfile.inodeInfo.size
        (effWriteOffset wfile + ((real_write_cfs true wfile 5 0 5 3).ret).toNat) := by
  refine ⟨by decide, by decide, by decide, ?_⟩
  decide

/-- C1 (amended): for every write and pwrite on an in-mount descriptor,
the data is first offered to the page cache; if the inode's policy is
write-through or the cache accepted fewer bytes than requested, the
entire requested range is written through to the backend; whenever the
cache/backend path succeeds with m > 0 bytes, the cached size is updated
to max(old_size, offset + m).  The returned count n equals m, except for
write when a replicate path is configured and the mirrored local write
returns a different count, in which case n is the local count while the
size update still used m. -/
theorem write_pwrite_full_range_and_size (replicate : Bool) (f0 g0 : file_t)
    (countW countP offP wcW wcP : Nat) (pwW lwW pwP lwP : Int) :
    ((real_write_cfs replicate f0 countW wcW pwW lwW).backendWrite =
       (if useBackendPath f0 countW wcW then some (effWriteOffset f0, countW)
        else none)) ∧
    (backendCount f0 countW wcW pwW > 0 →
       (real_write_cfs replicate f0 countW wcW pwW lwW).f.inodeInfo.size =
         max f0.inodeInfo.size
           (effWriteOffset f0 + (backendCount f0 countW wcW pwW).toNat)) ∧
    (¬ backendCount f0 countW wcW pwW > 0 →
       (real_write_cfs replicate f0 countW wcW pwW lwW).f.inodeInfo.size =
         f0.inodeInfo.size) ∧
    ((real_write_cfs replicate f0 countW wcW pwW lwW).ret =
       (if backendCount f0 countW wcW pwW > 0 ∧ replicate = true ∧
           lwW ≠ backendCount f0 countW wcW pwW
        then lwW else backendCount f0 countW wcW pwW)) ∧
    (replicate = true ∧ lwP < 0 →
       (real_pwrite_cfs replicate g0 countP offP wcP pwP lwP).ret = lwP ∧
       (real_pwrite_cfs replicate g0 countP offP wcP pwP lwP).f = g0 ∧
       (real_pwrite_cfs replicate g0 countP offP wcP pwP lwP).backendWrite =
         none) ∧
    (¬(replicate = true ∧ lwP < 0) →
       (real_pwrite_cfs replicate g0 countP offP wcP pwP lwP).backendWrite =
         (if useBackendPath g0 countP wcP then some (offP, countP) else none) ∧
       (real_pwrite_cfs replicate g0 countP offP wcP pwP lwP).ret =
         backendCount g0 countP wcP pwP ∧
       (backendCount g0 countP wcP pwP > 0 →
          (real_pwrite_cfs replicate g0 countP offP wcP pwP lwP).f.inodeInfo.size
            = max g0.inodeInfo.size
                (offP + (backendCount g0 countP wcP pwP).toNat)) ∧
       (¬ backendCount g0 countP wcP pwP > 0 →
          (real_pwrite_cfs replicate g0 countP offP wcP pwP lwP).f = g0)) := by
  simp only [real_write_cfs, real_pwrite_cfs, useBackendPath, backendCount,
    effWriteOffset, update_inode_size]
  refine ⟨?_, ?_, ?_, ?_, ?_, ?_⟩
  · split_ifs <;> rfl
  · intro hm; split_ifs at hm ⊢ <;> simp_all
  · intro hm; split_ifs at hm ⊢ <;> simp_all
  · split_ifs <;> simp_all
  · intro hrep; rw [if_pos hrep]; exact ⟨rfl, rfl, rfl⟩
  · intro hrep; rw [if_neg hrep]
    refine ⟨?_, ?_, ?_, ?_⟩
    · split_ifs <;> rfl
    · split_ifs <;> simp_all
    · intro hm; split_ifs at hm ⊢ <;> simp_all
    · intro hm; split_ifs at hm ⊢ <;> simp_all

/-- Closed instance of `write_pwrite_full_range_and_size`: a plain write
of 5 bytes with the cache accepting none goes to the backend for the
whole range and raises the cached size to 5. -/
theorem write_pwrite_full_range_and_size_witness :
    (real_write_cfs false wfile 5 0 5 0).backendWrite = some (0, 5) ∧
    (real_write_cfs false wfile 5 0 5 0).f.inodeInfo.size = 5 := by
  obtain ⟨h1, h2, -, -, -, -⟩ :=
    write_pwrite_full_range_and_size false wfile wfile 5 5 0 0 0 5 0 0 0
  exact ⟨by simpa using h1, by simpa using h2 (by decide)⟩

/-- C6: for every write and writev on an in-mount descriptor opened with
`O_APPEND`, the cursor is repositioned to the inode's current cached
size immediately before the write, so the write targets the tracked
end-of-file regardless of any cursor position previously set by lseek. -/
theorem append_write_targets_cached_eof (replicate : Bool) (f0 : file_t)
    (count wc : Nat) (pw lw pv lv : Int) (h : f0.appendFlag = true) :
    (real_write_cfs replicate f0 count wc pw lw).writeOffset =
      f0.inodeInfo.size ∧
    (∀ off, (real_writev_cfs replicate f0 pv lv).backendOffset = some off →
       off = f0.inodeInfo.size) := by
  constructor
  · simp only [real_write_cfs, h]
    split_ifs <;> rfl
  · intro off hoff
    simp only [real_writev_cfs, h] at hoff
    split_ifs at hoff <;> simp_all

/-- Closed instance of `append_write_targets_cached_eof`: with `O_APPEND`
set, a cursor previously seeked to 42 is ignored and the write lands at
the cached size 7. -/
theorem append_write_targets_cached_eof_witness :
    (real_write_cfs false
        { wfile with appendFlag := true, pos := 42,
                     inodeInfo := { wfile.inodeInfo with size := 7 } }
        5 0 5 0).writeOffset = 7 := by
  have h := append_write_targets_cached_eof false
    { wfile with appendFlag := true, pos := 42,
                 inodeInfo := { wfile.inodeInfo with size := 7 } }
    5 0 5 0 5 0 rfl
  simpa using h.1

/-- Concrete fixture for the read-path theorems: a regular file of
cached size 10 with cursor 0 and no page-cache policy bits. -/
def rfile : file_t :=
  { pos := 0, appendFlag := false, fileType := FileType.regular, dup_ref := 1,
    inodeInfo :=
      { inode := 2, size := 10, fd_ref := 1,
        cacheFlag :=
          { writeBack := false, writeThrough := false, priorityHigh := false } } }

/-- C2 counterexample: a read of 12 bytes at offset 0 on a file of
cached size 10 triggers the refresh, the backend reports the refreshed
size 5, but the InodeInfo's cached size stays 10 — it is not updated to
the refreshed value, because the size update never lowers it. -/
theorem read_refresh_size_not_lowered_cex :
    (real_read_cfs false true true rfile 12 0 [] 0 5 false [] 0 []).refreshed =
      true ∧
    toSizeT 5 = 5 ∧
    (real_read_cfs false true true rfile 12 0 [] 0 5 false [] 0
        []).f.inodeInfo.size = 10 ∧
    (real_read_cfs false true true rfile 12 0 [] 0 5 false [] 0
        []).f.inodeInfo.size ≠ toSizeT 5 := by
  refine ⟨by decide, by decide, by decide, by decide⟩

/-- C2 (amended): for every read and pread on an in-mount descriptor
where the page cache serves fewer bytes than requested, the requested
range reaches the inode's currently cached size, and the file type is
not binlog, the operation first flushes the inode's dirty cached ranges
to the backend, then requests a refresh of the extent map and
authoritative size and raises the InodeInfo's cached size to the
refreshed value when that value exceeds the current one (the cached size
is never lowered); for binlog files the refresh step is never
performed. -/
theorem read_pread_refresh_on_growth
    (replicate mallocOk lseekOk mallocOkP : Bool) (f0 g0 : file_t)
    (countR countP offP : Nat) (lr lp : Int) (ld ldp : List Nat)
    (rcR rcP : Nat) (rf rfp : Int) (rn rnp : Bool)
    (reqs reqsp : List ReadReq) (cp cpp : Int) (cd cdp : List Nat) :
    ((replicate = true → mallocOk = true ∧ lseekOk = true) →
     rcR < countR → f0.pos + countR ≥ f0.inodeInfo.size →
     f0.fileType ≠ FileType.binLog →
       (real_read_cfs replicate mallocOk lseekOk f0 countR lr ld rcR rf rn
           reqs cp cd).flushedInode = true ∧
       (real_read_cfs replicate mallocOk lseekOk f0 countR lr ld rcR rf rn
           reqs cp cd).refreshed = true ∧
       (real_read_cfs replicate mallocOk lseekOk f0 countR lr ld rcR rf rn
           reqs cp cd).f.inodeInfo.size =
         max f0.inodeInfo.size (toSizeT rf)) ∧
    (f0.fileType = FileType.binLog →
       (real_read_cfs replicate mallocOk lseekOk f0 countR lr ld rcR rf rn
           reqs cp cd).refreshed = false ∧
       (real_read_cfs replicate mallocOk lseekOk f0 countR lr ld rcR rf rn
           reqs cp cd).flushedInode = false) ∧
    ((replicate = true → mallocOkP = true) →
     rcP < countP → offP + countP ≥ g0.inodeInfo.size →
     g0.fileType ≠ FileType.binLog →
       (real_pread_cfs replicate mallocOkP g0 countP offP lp ldp rcP rfp rnp
           reqsp cpp cdp).flushedInode = true ∧
       (real_pread_cfs replicate mallocOkP g0 countP offP lp ldp rcP rfp rnp
           reqsp cpp cdp).refreshed = true ∧
       (real_pread_cfs replicate mallocOkP g0 countP offP lp ldp rcP rfp rnp
           reqsp cpp cdp).f.inodeInfo.size =
         max g0.inodeInfo.size (toSizeT rfp)) ∧
    (g0.fileType = FileType.binLog →
       (real_pread_cfs replicate mallocOkP g0 countP offP lp ldp rcP rfp rnp
           reqsp cpp cdp).refreshed = false ∧
       (real_pread_cfs replicate mallocOkP g0 countP offP lp ldp rcP rfp rnp
           reqsp cpp cdp).flushedInode = false) := by
  refine ⟨?_, ?_, ?_, ?_⟩
  · intro hpre hc hrange hft
    cases hrep : replicate with
    | true =>
        obtain ⟨hm, hl⟩ := hpre hrep
        simp [real_read_cfs, hm, hl, hc, hrange, hft, update_inode_size]
    | false =>
        simp [real_read_cfs, hc, hrange, hft, update_inode_size]
  · intro hft
    cases hrep : replicate with
    | true =>
        cases hm : mallocOk with
        | false => simp [real_read_cfs, hm]
        | true =>
            cases hl : lseekOk with
            | false => simp [real_read_cfs, hm, hl]
            | true => simp [real_read_cfs, hm, hl, hft]
    | false => simp [real_read_cfs, hft]
  · intro hpre hc hrange hft
    cases hrep : replicate with
    | true =>
        have hm := hpre hrep
        simp [real_pread_cfs, hm, hc, hrange, hft, update_inode_size]
    | false =>
        simp [real_pread_cfs, hc, hrange, hft, update_inode_size]
  · intro hft
    cases hrep : replicate with
    | true =>
        cases hm : mallocOkP with
        | false => simp [real_pread_cfs, hm]
        | true => simp [real_pread_cfs, hm, hft]
    | false => simp [real_pread_cfs, hft]

/-- Closed instance of `read_pread_refresh_on_growth`: a 12-byte read at
offset 0 of a 10-byte file refreshes and raises the cached size to the
refreshed value 20. -/
theorem read_pread_refresh_on_growth_witness :
    (real_read_cfs false true true rfile 12 0 [] 0 20 false [] 0
        []).refreshed = true ∧
    (real_read_cfs false true true rfile 12 0 [] 0 20 false [] 0
        []).f.inodeInfo.size = max rfile.inodeInfo.size (toSizeT 20) := by
  obtain ⟨h1, -, -, -⟩ := read_pread_refresh_on_growth false true true true
    rfile rfile 12 12 0 0 0 [] [] 0 0 20 20 false false [] [] 0 0 [] []
  obtain ⟨-, h2, h3⟩ := h1 (by simp) (by decide) (by decide) (by decide)
  exact ⟨h2, h3⟩

/-- Concrete fixture for the per-extent read theorems: one extent
request of 5 bytes whose storage node replies with only 3. -/
def shortReq : ReadReq :=
  { size := 5, partition_id := 1, packetOk := true, connFd := 3,
    writeRes := 0, replyRes := 3 }

/-- C5 counterexample: after a refresh (`hasRefreshed = true`), a
per-extent fetch that returns 3 of the 5 requested bytes without any
error does **not** fall back to the whole-range SDK read: the result is
the short count 3, not the SDK fallback result 99. -/
theorem pread_sock_short_no_fallback_cex :
    (cfs_pread_sock 5 true false [shortReq] 99).1 = 3 ∧
    (cfs_pread_sock 5 true false [shortReq] 99).2 = false ∧
    (preadSockLoop [shortReq]).1 < 5 ∧
    (preadSockLoop [shortReq]).2 = false := by
  refine ⟨by decide, by decide, by decide, by decide⟩

/-- C5 (amended): the direct per-extent read falls back to a single
whole-range SDK read exactly when the request enumeration or the
per-extent fetch errored, or when fewer bytes than requested were
gathered **and** the extent map was not refreshed earlier in the same
call; after a refresh, a short error-free per-extent result is returned
as-is.  The fallback returns the SDK result; otherwise the gathered
bytes are returned.  In `real_read`/`real_pread`, the length passed to
`cfs_pread_sock` is capped at the (possibly refreshed) file size. -/
theorem pread_sock_fallback_policy_and_cap
    (count : Nat) (hasRefreshed reqCountNeg : Bool) (reqs : List ReadReq)
    (cpr : Int) (replicate mallocOk lseekOk mallocOkP : Bool) (f0 g0 : file_t)
    (countR countP offP : Nat) (lr lp : Int) (ld ldp : List Nat)
    (rcR rcP : Nat) (rf rfp : Int) (rn rnp : Bool)
    (reqsR reqsP : List ReadReq) (cp cpp : Int) (cd cdp : List Nat) :
    ((cfs_pread_sock count hasRefreshed reqCountNeg reqs cpr).2 = true ↔
       (reqCountNeg = true ∨ (preadSockLoop reqs).2 = true ∨
        ((if reqCountNeg then 0 else (preadSockLoop reqs).1) < count ∧
         hasRefreshed = false))) ∧
    ((cfs_pread_sock count hasRefreshed reqCountNeg reqs cpr).2 = true →
       (cfs_pread_sock count hasRefreshed reqCountNeg reqs cpr).1 = cpr) ∧
    ((cfs_pread_sock count hasRefreshed reqCountNeg reqs cpr).2 = false →
       (cfs_pread_sock count hasRefreshed reqCountNeg reqs cpr).1 =
         ((if reqCountNeg then 0 else (preadSockLoop reqs).1 : Nat) : Int)) ∧
    (∀ nc off hr,
       (real_read_cfs replicate mallocOk lseekOk f0 countR lr ld rcR rf rn
           reqsR cp cd).sockCall = some (nc, off, hr) →
       off + nc ≤ (real_read_cfs replicate mallocOk lseekOk f0 countR lr ld
           rcR rf rn reqsR cp cd).sizeSeen) ∧
    (∀ nc off hr,
       (real_pread_cfs replicate mallocOkP g0 countP offP lp ldp rcP rfp rnp
           reqsP cpp cdp).sockCall = some (nc, off, hr) →
       off + nc ≤ (real_pread_cfs replicate mallocOkP g0 countP offP lp ldp
           rcP rfp rnp reqsP cpp cdp).sizeSeen) := by
  refine ⟨?_, ?_, ?_, ?_, ?_⟩
  · cases hrn : reqCountNeg <;> cases hhr : hasRefreshed <;>
      simp only [cfs_pread_sock] <;> split_ifs <;> simp_all <;> tauto
  · intro h
    simp only [cfs_pread_sock] at h ⊢
    split_ifs at h ⊢ <;> simp_all
  · intro h
    simp only [cfs_pread_sock] at h ⊢
    split_ifs at h ⊢ <;> simp_all
  · intro nc off hr
    cases hrep : replicate with
    | true =>
        cases hm : mallocOk with
        | false => intro h; simp [real_read_cfs] at h
        | true =>
            cases hl : lseekOk with
            | false => intro h; simp [real_read_cfs] at h
            | true =>
                by_cases hA : rcR < countR
                · by_cases hB : f0.inodeInfo.size ≤ f0.pos + countR
                  · by_cases hC : f0.fileType = FileType.binLog
                    · by_cases hds : f0.pos + rcR < f0.inodeInfo.size
                      · intro h
                        simp [real_read_cfs, hA, hB, hC, hds] at h ⊢
                        obtain ⟨hnc, hoff, -⟩ := h
                        split at hnc <;> omega
                      · intro h; simp [real_read_cfs, hA, hB, hC, hds] at h
                    · by_cases hds : f0.pos + rcR < toSizeT rf
                      · intro h
                        simp [real_read_cfs, hA, hB, hC, hds] at h ⊢
                        obtain ⟨hnc, hoff, -⟩ := h
                        split at hnc <;> omega
                      · intro h; simp [real_read_cfs, hA, hB, hC, hds] at h
                  · by_cases hds : f0.pos + rcR < f0.inodeInfo.size
                    · intro h
                      simp [real_read_cfs, hA, hB, hds] at h ⊢
                      obtain ⟨hnc, hoff, -⟩ := h
                      split at hnc <;> omega
                    · intro h; simp [real_read_cfs, hA, hB, hds] at h
                · intro h; simp [real_read_cfs, hA] at h
    | false =>
        by_cases hA : rcR < countR
        · by_cases hB : f0.inodeInfo.size ≤ f0.pos + countR
          · by_cases hC : f0.fileType = FileType.binLog
            · by_cases hds : f0.pos + rcR < f0.inodeInfo.size
              · intro h
                simp [real_read_cfs, hA, hB, hC, hds] at h ⊢
                obtain ⟨hnc, hoff, -⟩ := h
                split at hnc <;> omega
              · intro h; simp [real_read_cfs, hA, hB, hC, hds] at h
            · by_cases hds : f0.pos + rcR < toSizeT rf
              · intro h
                simp [real_read_cfs, hA, hB, hC, hds] at h ⊢
                obtain ⟨hnc, hoff, -⟩ := h
                split at hnc <;> omega
              · intro h; simp [real_read_cfs, hA, hB, hC, hds] at h
          · by_cases hds : f0.pos + rcR < f0.inodeInfo.size
            · intro h
              simp [real_read_cfs, hA, hB, hds] at h ⊢
              obtain ⟨hnc, hoff, -⟩ := h
              split at hnc <;> omega
            · intro h; simp [real_read_cfs, hA, hB, hds] at h
        · intro h; simp [real_read_cfs, hA] at h
  · intro nc off hr
    cases hrep : replicate with
    | true =>
        cases hm : mallocOkP with
        | false => intro h; simp [real_pread_cfs] at h
        | true =>
            by_cases hA : rcP < countP
            · by_cases hB : g0.inodeInfo.size ≤ offP + countP
              · by_cases hC : g0.fileType = FileType.binLog
                · by_cases hds : offP + rcP < g0.inodeInfo.size
                  · intro h
                    simp [real_pread_cfs, hA, hB, hC, hds] at h ⊢
                    obtain ⟨hnc, hoff, -⟩ := h
                    split at hnc <;> omega
                  · intro h; simp [real_pread_cfs, hA, hB, hC, hds] at h
                · by_cases hds : offP + rcP < toSizeT rfp
                  · intro h
                    simp [real_pread_cfs, hA, hB, hC, hds] at h ⊢
                    obtain ⟨hnc, hoff, -⟩ := h
                    split at hnc <;> omega
                  · intro h; simp [real_pread_cfs, hA, hB, hC, hds] at h
              · by_cases hds : offP + rcP < g0.inodeInfo.size
                · intro h
                  simp [real_pread_cfs, hA, hB, hds] at h ⊢
                  obtain ⟨hnc, hoff, -⟩ := h
                  split at hnc <;> omega
                · intro h; simp [real_pread_cfs, hA, hB, hds] at h
            · intro h; simp [real_pread_cfs, hA] at h
    | false =>
      by_cases hA : rcP < countP
      · by_cases hB : g0.inodeInfo.size ≤ offP + countP
        · by_cases hC : g0.fileType = FileType.binLog
          · by_cases hds : offP + rcP < g0.inodeInfo.size
            · intro h
              simp [real_pread_cfs, hA, hB, hC, hds] at h ⊢
              obtain ⟨hnc, hoff, -⟩ := h
              split at hnc <;> omega
            · intro h; simp [real_pread_cfs, hA, hB, hC, hds] at h
          · by_cases hds : offP + rcP < toSizeT rfp
            · intro h
              simp [real_pread_cfs, hA, hB, hC, hds] at h ⊢
              obtain ⟨hnc, hoff, -⟩ := h
              split at hnc <;> omega
            · intro h; simp [real_pread_cfs, hA, hB, hC, hds] at h
        · by_cases hds : offP + rcP < g0.inodeInfo.size
          · intro h
            simp [real_pread_cfs, hA, hB, hds] at h ⊢
            obtain ⟨hnc, hoff, -⟩ := h
            split at hnc <;> omega
          · intro h; simp [real_pread_cfs, hA, hB, hds] at h
      · intro h; simp [real_pread_cfs, hA] at h

/-- Closed instance of `pread_sock_fallback_policy_and_cap`: without a
prior refresh, the same short error-free per-extent fetch does fall back
and returns the SDK result. -/
theorem pread_sock_fallback_policy_and_cap_witness :
    (cfs_pread_sock 5 false false [shortReq] 99).1 = 99 := by
  obtain ⟨h1, h2, -, -, -⟩ := pread_sock_fallback_policy_and_cap 5 false false
    [shortReq] 99 false false false false rfile rfile 0 0 0 0 0 [] [] 0 0 0 0
    false false [] [] 0 0 [] []
  exact h2 (h1.mpr (Or.inr (Or.inr ⟨by decide, rfl⟩)))

/-- C8 counterexample: in replicate mode, `real_readv` with one 4-byte
iovec where the backend returned 2 bytes and the local mirror 4 bytes
terminates the process although the 2-byte overlapping range returned by
both sides is identical — the comparison spans the full iovec length,
not only the overlap. -/
theorem readv_full_length_compare_cex :
    (real_readv_cfs true true rfile 2 4 [[1, 2, 0, 0]]
        [[1, 2, 3, 4]]).fatalExit = true ∧
    ([1, 2, 0, 0] : List Nat).take 2 = ([1, 2, 3, 4] : List Nat).take 2 := by
  refine ⟨by decide, by decide⟩

/-- C8 (amended): with a replicate path configured, `real_read` and
`real_pread` compare exactly the `min(re_local, re_cfs)`-byte
overlapping prefix returned by both sides and terminate on any mismatch
there; `real_readv` instead compares every iovec buffer over its full
length regardless of the byte counts either side returned, terminating
on any mismatch in those buffers. -/
theorem replicate_read_compare_fatal
    (replicate mallocOk lseekOk mallocOkP lseekOkV : Bool) (f0 g0 v0 : file_t)
    (countR countP offP : Nat) (lr lp pv lv : Int) (ld ldp : List Nat)
    (rcR rcP : Nat) (rf rfp : Int) (rn rnp : Bool)
    (reqsR reqsP : List ReadReq) (cp cpp : Int) (cd cdp : List Nat)
    (cfsBufs localBufs : List (List Nat)) :
    ((real_read_cfs replicate mallocOk lseekOk f0 countR lr ld rcR rf rn
        reqsR cp cd).fatalExit = true ↔
      (replicate = true ∧ mallocOk = true ∧ lseekOk = true ∧ lr > 0 ∧
       (real_read_cfs replicate mallocOk lseekOk f0 countR lr ld rcR rf rn
           reqsR cp cd).ret > 0 ∧
       ld.take (min lr (real_read_cfs replicate mallocOk lseekOk f0 countR lr
           ld rcR rf rn reqsR cp cd).ret).toNat ≠
         cd.take (min lr (real_read_cfs replicate mallocOk lseekOk f0 countR
             lr ld rcR rf rn reqsR cp cd).ret).toNat)) ∧
    ((real_pread_cfs replicate mallocOkP g0 countP offP lp ldp rcP rfp rnp
        reqsP cpp cdp).fatalExit = true ↔
      (replicate = true ∧ mallocOkP = true ∧ lp > 0 ∧
       (real_pread_cfs replicate mallocOkP g0 countP offP lp ldp rcP rfp rnp
           reqsP cpp cdp).ret > 0 ∧
       ldp.take (min lp (real_pread_cfs replicate mallocOkP g0 countP offP lp
           ldp rcP rfp rnp reqsP cpp cdp).ret).toNat ≠
         cdp.take (min lp (real_pread_cfs replicate mallocOkP g0 countP offP
             lp ldp rcP rfp rnp reqsP cpp cdp).ret).toNat)) ∧
    ((real_readv_cfs replicate lseekOkV v0 pv lv cfsBufs
        localBufs).fatalExit = true ↔
      (replicate = true ∧ cfs_errno_ssize_t pv > 0 ∧ lseekOkV = true ∧
       lv > 0 ∧
       (cfsBufs.zip localBufs).any (fun p => p.1 ≠ p.2) = true)) := by
  refine ⟨?_, ?_, ?_⟩
  · cases hrep : replicate with
    | false => simp [real_read_cfs]
    | true =>
        cases hm : mallocOk with
        | false => simp [real_read_cfs, hm]
        | true =>
            cases hl : lseekOk with
            | false => simp [real_read_cfs, hm, hl]
            | true => simp [real_read_cfs, hm, hl]
  · cases hrep : replicate with
    | false => simp [real_pread_cfs]
    | true =>
        cases hm : mallocOkP with
        | false => simp [real_pread_cfs, hm]
        | true => simp [real_pread_cfs, hm]
  · cases hrep : replicate with
    | false => simp [real_readv_cfs]
    | true =>
        simp only [real_readv_cfs, if_pos rfl]
        by_cases h1 : cfs_errno_ssize_t pv ≤ 0
        · rw [if_pos h1]
          constructor
          · intro hfa; exact absurd hfa (by simp)
          · rintro ⟨-, hre, -, -, -⟩; omega
        · cases hl : lseekOkV with
          | false =>
              rw [if_neg h1, if_pos (show ¬(false = true) from by simp)]
              constructor
              · intro hfa; exact absurd hfa (by simp)
              · rintro ⟨-, -, hlk, -, -⟩; exact absurd hlk (by simp)
          | true =>
              rw [if_neg h1, if_neg (show ¬¬(true = true) from by simp)]
              by_cases h2 : lv ≤ 0
              · rw [if_pos h2]
                constructor
                · intro hfa; exact absurd hfa (by simp)
                · rintro ⟨-, -, -, hlv, -⟩; omega
              · rw [if_neg h2]
                constructor
                · intro hany; exact ⟨by trivial, by omega, by trivial, by omega, hany⟩
                · rintro ⟨-, -, -, -, hany⟩; exact hany

/-- Closed instance of `replicate_read_compare_fatal`: a cache-served
2-byte read whose local mirror bytes differ in the overlap is fatal. -/
theorem replicate_read_compare_fatal_witness :
    (real_read_cfs true true true rfile 2 2 [1, 1] 2 0 false [] 0
        [9, 9]).fatalExit = true := by
  have h := replicate_read_compare_fatal true true true true true rfile rfile
    rfile 2 0 0 2 0 0 0 [1, 1] [] 2 0 0 0 false false [] [] 0 0 [9, 9] [] [] []
  exact h.1.mpr (by refine ⟨rfl, rfl, rfl, by decide, by decide, by decide⟩)

/-- Concrete fixture for the truncate/fstat theorems: an open inode 9
with cached size 10. -/
def tInode : InodeInfo :=
  { inode := 9, size := 10, fd_ref := 1,
    cacheFlag := { writeBack := false, writeThrough := false, priorityHigh := false } }

def tIreg : List (Nat × InodeInfo) := [(9, tInode)]

/-- C7 counterexample: `real_truncate` whose backend truncate succeeds
but whose follow-up `cfs_stat` fails returns success (0) while the open
inode's cached size stays 10 instead of being set to the new length 5. -/
theorem truncate_stat_fail_size_stale_cex :
    (real_truncate_cfs false 0 0 (-1) 9 tIreg 5).1 = 0 ∧
    (real_truncate_cfs false 0 0 (-1) 9 tIreg 5).2 = tIreg ∧
    lookupKey 9 (real_truncate_cfs false 0 0 (-1) 9 tIreg 5).2 =
      some tInode ∧
    tInode.size ≠ 5 := by
  refine ⟨by decide, by decide, by decide, by decide⟩

/-- C7 (amended): `real_ftruncate` on a resolved open file (with the
replicate-mode local truncate succeeding when configured) sets the
cached size to the new length unconditionally of the backend result;
`real_truncate` sets it when the backend truncate succeeds **and** the
follow-up inode-resolving `cfs_stat` succeeds for an open inode; and
every subsequent stat/fstat-family call (stat, stat64, lstat, lstat64,
fstat, fstat64, fstatat, fstatat64, statx) on a currently open inode
reports the locally cached size in `st_size`/`stx_size`, overriding the
size returned by the backend's own stat call. -/
theorem truncate_ftruncate_stat_family_cached_size (replicate : Bool)
    (ltr ctr csr lfr cfr cfsr lfsr : Int) (stIno backendSize : Nat)
    (reg : List (Nat × InodeInfo)) (lenT lenF : Nat) (f0 : file_t)
    (ii : InodeInfo) :
    (¬(replicate = true ∧ ltr < 0) → ¬ ctr < 0 → csr = 0 →
       lookupKey stIno reg = some ii →
       (real_truncate_cfs replicate ltr ctr csr stIno reg lenT).1 = ctr ∧
       (real_truncate_cfs replicate ltr ctr csr stIno reg lenT).2 =
         setKey stIno { ii with size := lenT } reg) ∧
    (¬(replicate = true ∧ lfr < 0) →
       (real_ftruncate_cfs replicate lfr cfr (some f0) lenF).2 =
         some { f0 with inodeInfo := { f0.inodeInfo with size := lenF } }) ∧
    (cfsr = 0 → lookupKey stIno reg = some ii →
       (real_stat_cfs replicate cfsr lfsr stIno backendSize reg).2 = ii.size ∧
       (real_stat64_cfs replicate cfsr lfsr stIno backendSize reg).2 =
         ii.size ∧
       (real_lstat_cfs replicate cfsr lfsr stIno backendSize reg).2 =
         ii.size ∧
       (real_lstat64_cfs replicate cfsr lfsr stIno backendSize reg).2 =
         ii.size ∧
       (real_fstat_cfs replicate cfsr lfsr stIno backendSize reg).2 =
         ii.size ∧
       (real_fstat64_cfs replicate cfsr lfsr stIno backendSize reg).2 =
         ii.size ∧
       (real_fstatat_cfs replicate cfsr lfsr stIno backendSize reg).2 =
         ii.size ∧
       (real_fstatat64_cfs replicate cfsr lfsr stIno backendSize reg).2 =
         ii.size ∧
       (real_statx_cfs cfsr stIno backendSize reg).2 = ii.size) := by
  refine ⟨?_, ?_, ?_⟩
  · intro hrep hctr hcsr hlook
    rw [real_truncate_cfs, if_neg hrep]
    simp [cfs_errno_ssize_t, hctr, hcsr, hlook]
  · intro hrep
    rw [real_ftruncate_cfs, if_neg hrep]
  · intro hcfsr hlook
    simp [real_stat_cfs, real_stat64_cfs, real_lstat_cfs, real_lstat64_cfs,
      real_fstat_cfs, real_fstat64_cfs, real_fstatat_cfs, real_fstatat64_cfs,
      real_statx_cfs, statSizeOverride, cfs_errno_ssize_t, hcfsr, hlook]

/-- Closed instance of `truncate_ftruncate_stat_family_cached_size`:
with a successful backend truncate and stat, the open inode's cached
size is set to 5, and every stat-family wrapper reports the cached
size. -/
theorem truncate_ftruncate_stat_family_cached_size_witness :
    (real_truncate_cfs false 0 0 0 9 tIreg 5).2 =
      setKey 9 { tInode with size := 5 } tIreg ∧
    (real_stat_cfs false 0 0 9 0 tIreg).2 = tInode.size ∧
    (real_fstat_cfs false 0 0 9 0 tIreg).2 = tInode.size ∧
    (real_statx_cfs 0 9 0 tIreg).2 = tInode.size := by
  obtain ⟨h1, -, h3⟩ := truncate_ftruncate_stat_family_cached_size false 0 0 0
    0 0 0 0 9 0 tIreg 5 5 rfile tInode
  obtain ⟨-, ha⟩ := h1 (by simp) (by decide) rfl (by decide)
  obtain ⟨hs, -, -, -, hf, -, -, -, hx⟩ := h3 rfl (by decide)
  exact ⟨ha, hs, hf, hx⟩

end CfsClient
